import Mathlib

/-!
Verification development for the OneTrainer training pipeline.

This file gives a shallow embedding of the parts of the repository that the
checked properties are about:

* `StableDiffusionFineTuneSetup.predict` and `setup_model`
  (modules/modelSetup/StableDiffusionFineTuneSetup.py),
* the tail of `main` (scripts/train.py),
* the stage builders of the fine-tune data loader
  (modules/dataLoader/MgdsStableDiffusionVaeFineTuneVaeDataLoader.py),
* the resolution handling of `SanaSampler.sample`
  (modules/modelSampler/SanaSampler.py).

Tensors are embedded as shape data plus a total value function over ℚ; the
torch random number generators are embedded as abstract value streams: a
seeded `torch.Generator` is a pair (seed, offset) reading from a stream
`draw : seed → position → value`, and the process-global default generator is
a stream `gdraw` with a running offset that persists across invocations.
The neural networks (unet, text encoder, VAE decode) are opaque capability
functions, following the repository's treatment of them as collaborators.
-/

/-- A 4-dimensional torch tensor: batch, channel, height, width sizes and a
total value function (indices outside the shape are junk and never compared). -/
structure Tensor4 where
  n : Nat
  c : Nat
  h : Nat
  w : Nat
  data : Nat → Nat → Nat → Nat → ℚ

/-- Multiplication of a tensor by a scalar, elementwise. -/
def smulT (q : ℚ) (t : Tensor4) : Tensor4 :=
  ⟨t.n, t.c, t.h, t.w, fun b ch i j => q * t.data b ch i j⟩

/-- Division of a tensor by a scalar, elementwise. -/
def sdivT (t : Tensor4) (q : ℚ) : Tensor4 :=
  ⟨t.n, t.c, t.h, t.w, fun b ch i j => t.data b ch i j / q⟩

/-- Broadcast index: a size-1 dimension is always read at index 0. -/
def bIdx (size i : Nat) : Nat := if size = 1 then 0 else i

/-- Broadcast size of two compatible dimension sizes: a size-1 dimension
stretches to the other operand's size. -/
def bSize (a b : Nat) : Nat := if a = 1 then b else a

/-- Elementwise addition with torch-style broadcasting over size-1 dimensions. -/
def taddT (a b : Tensor4) : Tensor4 :=
  ⟨bSize a.n b.n, bSize a.c b.c, bSize a.h b.h, bSize a.w b.w,
    fun x y i j =>
      a.data (bIdx a.n x) (bIdx a.c y) (bIdx a.h i) (bIdx a.w j) +
      b.data (bIdx b.n x) (bIdx b.c y) (bIdx b.h i) (bIdx b.w j)⟩

/-- Elementwise clamp to the interval [lo, hi]. -/
def clampT (t : Tensor4) (lo hi : ℚ) : Tensor4 :=
  ⟨t.n, t.c, t.h, t.w, fun b ch i j => max lo (min hi (t.data b ch i j))⟩

/-- torch.concat of two tensors along dimension 1 (the channel axis). -/
def concatCh (a b : Tensor4) : Tensor4 :=
  ⟨a.n, a.c + b.c, a.h, a.w,
    fun x y i j => if y < a.c then a.data x y i j else b.data x (y - a.c) i j⟩

/-- All-zero placeholder tensor (the value Python's `None` would crash on;
never reached on the paths that use it). -/
def zeroT : Tensor4 := ⟨0, 0, 0, 0, fun _ _ _ _ => 0⟩

/-- State of a torch.Generator: the seed it was last seeded with and how many
values have been drawn from it. -/
structure Gen where
  seed : Nat
  offset : Nat

/-- torch.randn(shape, generator=g): fills a tensor of shape (n, c, h, w) with
consecutive values of the generator's stream in row-major order and advances
the generator.  `draw s k` is the k-th value of the stream of the generator
seeded with `s`; it abstracts the torch RNG algorithm. -/
def randn4 (draw : Nat → Nat → ℚ) (g : Gen) (n c h w : Nat) : Tensor4 × Gen :=
  (⟨n, c, h, w, fun b ch i j => draw g.seed (g.offset + ((b * c + ch) * h + i) * w + j)⟩,
   ⟨g.seed, g.offset + n * c * h * w⟩)

/-- torch.randint(low=0, high, size=(size,)) drawn from the process-global
default generator, embedded as a raw stream `gdraw` read at a running offset
`goff` that persists across invocations.  Returns the sampled vector and the
advanced global offset. -/
def randintGlobal (gdraw : Nat → Nat) (goff high size : Nat) : (Nat → Nat) × Nat :=
  (fun i => gdraw (goff + i) % high, goff + size)

/-- Output of the text encoder, an opaque embedding tensor. -/
abbrev TextOut := Nat → ℚ

/-- Capability flags of a ModelType value (its has_mask_input /
has_conditioning_image_input / has_depth_input methods). -/
structure ModelType where
  has_mask_input : Bool
  has_conditioning_image_input : Bool
  has_depth_input : Bool
deriving DecidableEq

/-- The fields of TrainArgs that the embedded code reads. -/
structure TrainArgs where
  model_type : ModelType
  offset_noise_weight : ℚ
  max_noising_strength : ℚ
  debug_mode : Bool
  train_text_encoder : Bool
  train_text_encoder_epochs : Nat
  backup_before_save : Bool

/-- The parts of StableDiffusionModel that `predict` reads.  The networks are
opaque functions; `alphas_cumprod` is the scheduler's cumulative-alpha table
and `sqrtFn` abstracts the real-valued `** 0.5`. -/
structure SDModel where
  scaling_factor : ℚ
  num_train_timesteps : Nat
  alphas_cumprod : Nat → ℚ
  sqrtFn : ℚ → ℚ
  text_encoder : List Nat → TextOut
  unet : Tensor4 → (Nat → Nat) → TextOut → Option Tensor4 → Tensor4
  vae_decode : Tensor4 → Tensor4
  train_progress_epoch : Nat

/-- diffusers DDPMScheduler.add_noise: forward diffusion
sqrt(acp[t]) * sample + sqrt(1 - acp[t]) * noise, the per-sample timestep
coefficient broadcast over channels and space. -/
def add_noise (M : SDModel) (original_samples noise : Tensor4) (timesteps : Nat → Nat) : Tensor4 :=
  ⟨original_samples.n, original_samples.c, original_samples.h, original_samples.w,
    fun b ch i j =>
      M.sqrtFn (M.alphas_cumprod (timesteps b)) * original_samples.data b ch i j +
      M.sqrtFn (1 - M.alphas_cumprod (timesteps b)) * noise.data b ch i j⟩

/-- The batch fields that `predict` reads. -/
structure Batch where
  latent_image : Tensor4
  tokens : List Nat
  latent_mask : Tensor4
  latent_conditioning_image : Tensor4
  latent_depth : Tensor4

/-- The exclusive upper bound int(num_train_timesteps * max_noising_strength)
passed as `high` to torch.randint in `predict` (Python's int() truncation,
which agrees with the floor on the nonnegative values in play). -/
def highOf (M : SDModel) (args : TrainArgs) : Nat :=
  (((M.num_train_timesteps : ℚ) * args.max_noising_strength).floor).toNat

/-- The values `predict` returns or hands to collaborators, together with the
final states of both random generators. -/
structure PredictResult where
  predicted_latent_noise : Tensor4
  latent_noise : Tensor4
  timestep : Nat → Nat
  scaled_noisy_latent_image : Tensor4
  latent_input : Tensor4
  debug_images : List (String × Tensor4)
  generator_offset_after : Nat
  global_rng_offset_after : Nat

/-- Shallow embedding of StableDiffusionFineTuneSetup.predict.  `draw` is the
stream of the local torch.Generator (seeded with the global step), `gdraw` and
`goff` are the stream and current offset of the process-global default
generator (used by the torch.randint call, which passes no generator). -/
def predict (M : SDModel) (batch : Batch) (args : TrainArgs) (global_step : Nat)
    (draw : Nat → Nat → ℚ) (gdraw : Nat → Nat) (goff : Nat) : PredictResult :=
  let latent_image := batch.latent_image
  let scaled_latent_image := smulT M.scaling_factor latent_image
  let latent_conditioning_image : Option Tensor4 :=
    if args.model_type.has_conditioning_image_input then
      some batch.latent_conditioning_image
    else none
  let scaled_latent_conditioning_image : Option Tensor4 :=
    if args.model_type.has_conditioning_image_input then
      some (smulT M.scaling_factor batch.latent_conditioning_image)
    else none
  let generator : Gen := ⟨global_step, 0⟩
  let noiseAndGen : Tensor4 × Gen :=
    if 0 < args.offset_noise_weight then
      let ng := randn4 draw generator scaled_latent_image.n scaled_latent_image.c
        scaled_latent_image.h scaled_latent_image.w
      let og := randn4 draw ng.2 scaled_latent_image.n scaled_latent_image.c 1 1
      (taddT ng.1 (smulT args.offset_noise_weight og.1), og.2)
    else
      randn4 draw generator scaled_latent_image.n scaled_latent_image.c
        scaled_latent_image.h scaled_latent_image.w
  let latent_noise := noiseAndGen.1
  let tsAndOff := randintGlobal gdraw goff (highOf M args) scaled_latent_image.n
  let timestep := tsAndOff.1
  let scaled_noisy_latent_image := add_noise M scaled_latent_image latent_noise timestep
  let text_encoder_output := M.text_encoder batch.tokens
  let latent_input :=
    if args.model_type.has_mask_input && args.model_type.has_conditioning_image_input then
      concatCh (concatCh scaled_noisy_latent_image batch.latent_mask)
        (scaled_latent_conditioning_image.getD zeroT)
    else scaled_noisy_latent_image
  let predicted_latent_noise :=
    if args.model_type.has_depth_input then
      M.unet latent_input timestep text_encoder_output (some batch.latent_depth)
    else
      M.unet latent_input timestep text_encoder_output none
  let debug_images : List (String × Tensor4) :=
    if args.debug_mode then
      let noise := clampT (M.vae_decode (sdivT latent_noise M.scaling_factor)) (-1) 1
      let predicted_noise :=
        clampT (M.vae_decode (sdivT predicted_latent_noise M.scaling_factor)) (-1) 1
      let noisy_image :=
        clampT (M.vae_decode (sdivT scaled_noisy_latent_image M.scaling_factor)) (-1) 1
      let scaled_predicted_latent_image : Tensor4 :=
        ⟨scaled_noisy_latent_image.n, scaled_noisy_latent_image.c,
          scaled_noisy_latent_image.h, scaled_noisy_latent_image.w,
          fun b ch i j =>
            (scaled_noisy_latent_image.data b ch i j -
              predicted_latent_noise.data b ch i j *
                M.sqrtFn (1 - M.alphas_cumprod (timestep b))) /
              M.sqrtFn (M.alphas_cumprod (timestep b))⟩
      let predicted_image :=
        clampT (M.vae_decode (sdivT scaled_predicted_latent_image M.scaling_factor)) (-1) 1
      let image := clampT (M.vae_decode latent_image) (-1) 1
      let base := [("1-noise", noise), ("2-predicted_noise", predicted_noise),
        ("3-noisy_image", noisy_image), ("4-predicted_image", predicted_image),
        ("5-image", image)]
      if args.model_type.has_conditioning_image_input then
        base ++ [("6-conditioning_image",
          clampT (M.vae_decode (latent_conditioning_image.getD zeroT)) (-1) 1)]
      else base
    else []
  ⟨predicted_latent_noise, latent_noise, timestep, scaled_noisy_latent_image, latent_input,
    debug_images, noiseAndGen.2.offset, tsAndOff.2⟩

/-- Outcome of the trainer.train() call in scripts/train.py main. -/
inductive TrainOutcome
  | ok
  | keyboardInterrupt
deriving DecidableEq

/-- Embedding of the tail of main in scripts/train.py: trainer.train() is run
inside a try block, KeyboardInterrupt is caught and sets canceled, and
trainer.end() is called iff `not canceled or args.backup_before_save`.
Returns (canceled, endCalled); totality of the function models that the
interruption is caught rather than propagated. -/
def mainAfterTrain (outcome : TrainOutcome) (backup_before_save : Bool) : Bool × Bool :=
  let canceled :=
    match outcome with
    | .ok => false
    | .keyboardInterrupt => true
  let endCalled := !canceled || backup_before_save
  (canceled, endCalled)

/-- Configuration of the mgds SampleVAEDistribution module, as constructed by
the data loader. -/
structure SampleVAEDistribution where
  in_name : String
  out_name : String
  mode : String
deriving DecidableEq

/-- Configuration of the mgds AspectBatchSorting module. -/
structure AspectBatchSorting where
  resolution_in_name : String
  names : List String
  batch_size : Nat
  sort_resolutions_for_each_epoch : Bool

/-- Configuration of the mgds OutputPipelineModule. -/
structure OutputPipelineModule where
  names : List String

/-- The three modules built by __output_modules. -/
structure OutputModules where
  image_sample : SampleVAEDistribution
  batch_sorting : AspectBatchSorting
  output : OutputPipelineModule

/-- The TrainArgs fields read by the data-loader stage builders. -/
structure DataLoaderArgs where
  masked_training : Bool
  batch_size : Nat

/-- Embedding of __output_modules in
MgdsStableDiffusionVaeFineTuneVaeDataLoader.py. -/
def outputModules (args : DataLoaderArgs) : OutputModules :=
  let output_names := ["image", "latent_image", "image_path"] ++
    (if args.masked_training then ["latent_mask"] else [])
  let image_sample : SampleVAEDistribution :=
    ⟨"latent_image_distribution", "latent_image", "mean"⟩
  let batch_sorting : AspectBatchSorting :=
    ⟨"crop_resolution", output_names, args.batch_size, true⟩
  let output : OutputPipelineModule := ⟨output_names⟩
  ⟨image_sample, batch_sorting, output⟩

/-- Modelled from the spec: the mgds SampleVAEDistribution module (library
code not under src/) "converts the cached latent distribution into one
concrete latent tensor by taking either its mean or a reparameterized random
draw, depending on configured mode".  One scalar coordinate of the
distribution is (mean, std); eps is a standard normal draw. -/
def sampleVAEDistributionApply (mode : String) (mean std eps : ℚ) : ℚ :=
  if mode = "mean" then mean else mean + std * eps

/-- Configuration of the mgds CollectPaths module.  The source keyword
arguments include_postfix / exclude_postfix are named include_suffixes /
exclude_suffixes here. -/
structure CollectPaths where
  concept_in_name : String
  path_in_name : String
  name_in_name : String
  path_out_name : String
  concept_out_name : String
  extensions : List String
  include_suffixes : Option (List String)
  exclude_suffixes : List String
deriving DecidableEq

/-- Configuration of the mgds ModifyPath module.  The source keyword argument
postfix is named appended here. -/
structure ModifyPath where
  in_name : String
  out_name : String
  appended : String
  extension : String
deriving DecidableEq

/-- A module of the enumerate-input stage. -/
inductive EnumerateModule
  | collect (cfg : CollectPaths)
  | modifyPath (cfg : ModifyPath)
deriving DecidableEq

/-- The supported_extensions list of __enumerate_input_modules. -/
def supported_extensions : List String :=
  [".bmp", ".jpg", ".jpeg", ".png", ".tif", ".tiff", ".webp"]

/-- The CollectPaths module as configured by __enumerate_input_modules. -/
def collectPathsModule : CollectPaths :=
  ⟨"concept", "path", "name", "image_path", "concept",
    supported_extensions, none, ["-masklabel"]⟩

/-- The ModifyPath module as configured by __enumerate_input_modules. -/
def maskPathModule : ModifyPath := ⟨"image_path", "mask_path", "-masklabel", ".png"⟩

/-- Embedding of __enumerate_input_modules in
MgdsStableDiffusionVaeFineTuneVaeDataLoader.py. -/
def enumerateInputModules (masked_training : Bool) : List EnumerateModule :=
  let modules := [EnumerateModule.collect collectPathsModule]
  if masked_training then modules ++ [EnumerateModule.modifyPath maskPathModule] else modules

/-- Modelled from the spec: the mgds CollectPaths module (library code not
under src/) collects exactly the files whose extension is one of the
configured extensions and whose name does not end in an excluded name
suffix.  A file path is modelled as a (stem, extension) pair. -/
def collectAccepts (cfg : CollectPaths) (stem ext : String) : Bool :=
  cfg.extensions.contains ext && !(cfg.exclude_suffixes.any (fun p => stem.endsWith p))

/-- Modelled from the spec: the mgds ModifyPath module (library code not
under src/) writes into its out_name field the input path's stem with the
configured name suffix appended and the configured extension substituted for
the original one. -/
def modifyPathApply (cfg : ModifyPath) (stem : String) : String :=
  stem ++ cfg.appended ++ cfg.extension

/-- requires_grad flags of the three submodules of a StableDiffusionModel. -/
structure GradFlags where
  text_encoder : Bool
  vae : Bool
  unet : Bool
deriving DecidableEq

/-- Embedding of the requires_grad_ calls of
StableDiffusionFineTuneSetup.setup_model: the prior flag state is wholly
overwritten. -/
def setup_model (train_text_encoder : Bool) (train_text_encoder_epochs : Nat)
    (model_epoch : Nat) (_prior : GradFlags) : GradFlags :=
  let tte := train_text_encoder && decide (model_epoch < train_text_encoder_epochs)
  ⟨tte, false, true⟩

/-- Modelled from the spec: BaseModelSampler.quantize_resolution (not under
src/) rounds the requested resolution to a multiple of the quantization
step. -/
def quantize_resolution (resolution quantization : Nat) : Nat :=
  ((resolution + quantization / 2) / quantization) * quantization

/-- The SampleConfig fields relevant to the generated geometry. -/
structure MSampleConfig where
  height : Nat
  width : Nat

/-- Geometry produced by SanaSampler: the height/width handed to
__sample_base and the pixel size of the decoded image. -/
structure SanaGeometry where
  used_height : Nat
  used_width : Nat
  image_height : Nat
  image_width : Nat

/-- Embedding of the geometry of SanaSampler.sample / __sample_base: sample
quantizes the requested height and width with step 32; __sample_base draws a
latent of spatial size (height // vae_scale_factor, width //
vae_scale_factor) which the VAE decoder upsamples again by
vae_scale_factor. -/
def sanaSample (cfg : MSampleConfig) (vae_scale_factor : Nat) : SanaGeometry :=
  let height := quantize_resolution cfg.height 32
  let width := quantize_resolution cfg.width 32
  ⟨height, width,
    vae_scale_factor * (height / vae_scale_factor),
    vae_scale_factor * (width / vae_scale_factor)⟩

/-- C2: when trainer.train() is interrupted by the user, main catches the
interruption (the function still returns a result), and trainer.end() is
performed exactly when args.backup_before_save says so; for a non-interrupted
run trainer.end() is always performed, whatever the flag. -/
theorem main_interrupt_graceful (b : Bool) :
    (mainAfterTrain .ok b).2 = true ∧
    ((mainAfterTrain .keyboardInterrupt b).2 = true ↔ b = true) := by
  cases b <;> simp [mainAfterTrain]

/-- C4 counterexample: the sampling mode of the SampleVAEDistribution module
built by __output_modules is the fixed literal "mean" for every configuration;
no configuration selects a reparameterized random draw. -/
theorem output_sampling_mode_fixed :
    (outputModules ⟨false, 1⟩).image_sample.mode = "mean" ∧
    (outputModules ⟨true, 4⟩).image_sample.mode = "mean" ∧
    ¬ ∃ a : DataLoaderArgs, (outputModules a).image_sample.mode ≠ "mean" := by
  refine ⟨rfl, rfl, ?_⟩
  rintro ⟨a, ha⟩
  exact ha rfl

/-- C4 (amended): the distribution-sampling stage converts
latent_image_distribution into latent_image via a SampleVAEDistribution module
whose mode is fixed to "mean", so the concrete latent is always the
distribution's mean (the module's random-draw mode is never selected). -/
theorem output_sampling_is_mean (a : DataLoaderArgs) (mean std eps : ℚ) :
    (outputModules a).image_sample =
      ⟨"latent_image_distribution", "latent_image", "mean"⟩ ∧
    sampleVAEDistributionApply (outputModules a).image_sample.mode mean std eps = mean := by
  exact ⟨rfl, by simp [sampleVAEDistributionApply, outputModules]⟩

/-- C8: the CollectPaths module built by __enumerate_input_modules accepts
exactly the files with a supported image extension whose name does not end in
"-masklabel"; the ModifyPath module that derives mask_path (appending
"-masklabel" and substituting the extension with ".png") is in the stage if
and only if masked_training is enabled. -/
theorem enumerate_excludes_masks_and_adds_mask_module (b : Bool) (stem ext : String) :
    (collectAccepts collectPathsModule stem ext =
      (supported_extensions.contains ext && !(stem.endsWith "-masklabel"))) ∧
    ((EnumerateModule.modifyPath maskPathModule ∈ enumerateInputModules b) ↔ b = true) ∧
    maskPathModule.out_name = "mask_path" ∧
    modifyPathApply maskPathModule stem = stem ++ "-masklabel" ++ ".png" := by
  refine ⟨?_, ?_, rfl, rfl⟩
  · simp [collectAccepts, collectPathsModule]
  · cases b <;> simp [enumerateInputModules]

/-- C9: after setup_model, the VAE's requires_grad is False, the U-Net's is
True, and the text encoder's is True iff train_text_encoder is set and the
model's current epoch is strictly below train_text_encoder_epochs, regardless
of the prior flag state. -/
theorem setup_model_grad_flags (t : Bool) (te_epochs model_epoch : Nat) (prior : GradFlags) :
    (setup_model t te_epochs model_epoch prior).vae = false ∧
    (setup_model t te_epochs model_epoch prior).unet = true ∧
    ((setup_model t te_epochs model_epoch prior).text_encoder = true ↔
      (t = true ∧ model_epoch < te_epochs)) := by
  refine ⟨rfl, rfl, ?_⟩
  simp [setup_model]

/-- C10: SanaSampler.sample generates at the requested height and width
quantized to multiples of 32, and (whenever the VAE scale factor divides 32)
the decoded image has exactly those dimensions, hence dimensions divisible by
32 even for requests that are not. -/
theorem sana_sample_resolution_multiple_of_32 (cfg : MSampleConfig) (vsf : Nat)
    (hv : vsf ∣ 32) :
    (sanaSample cfg vsf).used_height = quantize_resolution cfg.height 32 ∧
    (sanaSample cfg vsf).used_width = quantize_resolution cfg.width 32 ∧
    32 ∣ (sanaSample cfg vsf).used_height ∧
    32 ∣ (sanaSample cfg vsf).used_width ∧
    (sanaSample cfg vsf).image_height = quantize_resolution cfg.height 32 ∧
    (sanaSample cfg vsf).image_width = quantize_resolution cfg.width 32 := by
  have hdh : 32 ∣ quantize_resolution cfg.height 32 := Dvd.intro_left _ rfl
  have hdw : 32 ∣ quantize_resolution cfg.width 32 := Dvd.intro_left _ rfl
  refine ⟨rfl, rfl, hdh, hdw, ?_, ?_⟩
  · exact Nat.mul_div_cancel' (hv.trans hdh)
  · exact Nat.mul_div_cancel' (hv.trans hdw)

/-- C10 witness: at the requested resolution 1000 x 600 (not multiples of 32)
with the Sana VAE scale factor 32, the generated image is 992 x 608, both
multiples of 32. -/
theorem sana_sample_resolution_multiple_of_32_witness :
    (32 : Nat) ∣ 32 ∧ ¬ (32 : Nat) ∣ 1000 ∧
    (sanaSample ⟨1000, 600⟩ 32).image_height = quantize_resolution 1000 32 ∧
    32 ∣ (sanaSample ⟨1000, 600⟩ 32).used_height := by
  have h := sana_sample_resolution_multiple_of_32 ⟨1000, 600⟩ 32 (by decide)
  exact ⟨by decide, by decide, h.2.2.2.2.1, h.2.2.1⟩

/-- A concrete seeded-generator stream for witnesses. -/
def cDraw : Nat → Nat → ℚ := fun s k => (s : ℚ) + (k : ℚ)

/-- A concrete process-global raw stream for witnesses. -/
def cGdraw : Nat → Nat := fun k => k

/-- A concrete 1x1x1x1 tensor for witnesses. -/
def cT : Tensor4 := ⟨1, 1, 1, 1, fun _ _ _ _ => 0⟩

/-- A concrete model for witnesses: scaling factor 1, 2 train timesteps. -/
def cModel : SDModel :=
  ⟨1, 2, fun _ => 1, fun q => q, fun _ => fun _ => 0, fun li _ _ _ => li, fun t => t, 0⟩

/-- A concrete batch for witnesses. -/
def cBatch : Batch := ⟨cT, [], cT, cT, cT⟩

/-- Concrete args for witnesses: no offset noise, full noising strength. -/
def cArgs : TrainArgs := ⟨⟨false, false, false⟩, 0, 1, false, false, 0, false⟩

/-- Concrete args for witnesses: offset noise weight 1. -/
def cArgsOff : TrainArgs := ⟨⟨false, false, false⟩, 1, 1, false, false, 0, false⟩

/-- Replace the debug_mode flag of an args record. -/
def setDebug (a : TrainArgs) (d : Bool) : TrainArgs :=
  ⟨a.model_type, a.offset_noise_weight, a.max_noising_strength, d,
    a.train_text_encoder, a.train_text_encoder_epochs, a.backup_before_save⟩

/-- Helper: the timestep vector reads the process-global stream at the
current global offset, reduced modulo the randint bound. -/
theorem predict_timestep_eq (M : SDModel) (B : Batch) (args : TrainArgs) (s : Nat)
    (draw : Nat → Nat → ℚ) (gdraw : Nat → Nat) (goff i : Nat) :
    (predict M B args s draw gdraw goff).timestep i = gdraw (goff + i) % highOf M args := rfl

/-- Helper: one invocation advances the global RNG by one draw per batch
sample. -/
theorem predict_goff_after (M : SDModel) (B : Batch) (args : TrainArgs) (s : Nat)
    (draw : Nat → Nat → ℚ) (gdraw : Nat → Nat) (goff : Nat) :
    (predict M B args s draw gdraw goff).global_rng_offset_after =
      goff + B.latent_image.n := rfl

/-- Helper: the concrete randint bound of the witness model evaluates to 2. -/
theorem highOf_cArgs : highOf cModel cArgs = 2 := by
  have h2 : ((cModel.num_train_timesteps : ℚ) * cArgs.max_noising_strength) = 2 := by
    norm_num [cModel, cArgs]
  unfold highOf
  rw [h2]
  decide

/-- C1 counterexample: with fixed global step and fixed inputs, two
consecutive invocations of predict (the second starting at the global-RNG
offset left by the first) select different timesteps, because torch.randint
is called without the seeded generator. -/
theorem predict_timestep_not_reproducible :
    (predict cModel cBatch cArgs 7 cDraw cGdraw 0).timestep 0 ≠
      (predict cModel cBatch cArgs 7 cDraw cGdraw
        ((predict cModel cBatch cArgs 7 cDraw cGdraw 0).global_rng_offset_after)).timestep 0 := by
  rw [predict_timestep_eq, predict_goff_after, predict_timestep_eq, highOf_cArgs]
  decide

/-- C1 (amended): for a fixed global step and fixed inputs the drawn latent
noise is bit-reproducible (it never depends on the global-RNG stream or its
offset, only on the generator seeded with the global step), and the local
generator consumption is likewise reproducible; the selected timestep instead
reads the process-global stream at the current global offset. -/
theorem predict_noise_reproducible (M : SDModel) (B : Batch) (args : TrainArgs) (s : Nat)
    (draw : Nat → Nat → ℚ) (gdraw gdraw' : Nat → Nat) (goff goff' : Nat) :
    (predict M B args s draw gdraw goff).latent_noise =
      (predict M B args s draw gdraw' goff').latent_noise ∧
    (predict M B args s draw gdraw goff).generator_offset_after =
      (predict M B args s draw gdraw' goff').generator_offset_after ∧
    ∀ i, (predict M B args s draw gdraw goff).timestep i =
      gdraw (goff + i) % highOf M args := by
  exact ⟨rfl, rfl, fun i => rfl⟩

/-- C5: enabling debug mode changes neither returned tensor, nor the selected
timesteps, nor the consumption of either random generator; the debug branch
only adds inspection images. -/
theorem predict_debug_mode_no_effect (M : SDModel) (B : Batch) (args : TrainArgs) (s : Nat)
    (draw : Nat → Nat → ℚ) (gdraw : Nat → Nat) (goff : Nat) :
    (predict M B (setDebug args true) s draw gdraw goff).predicted_latent_noise =
      (predict M B (setDebug args false) s draw gdraw goff).predicted_latent_noise ∧
    (predict M B (setDebug args true) s draw gdraw goff).latent_noise =
      (predict M B (setDebug args false) s draw gdraw goff).latent_noise ∧
    (∀ i, (predict M B (setDebug args true) s draw gdraw goff).timestep i =
      (predict M B (setDebug args false) s draw gdraw goff).timestep i) ∧
    (predict M B (setDebug args true) s draw gdraw goff).generator_offset_after =
      (predict M B (setDebug args false) s draw gdraw goff).generator_offset_after ∧
    (predict M B (setDebug args true) s draw gdraw goff).global_rng_offset_after =
      (predict M B (setDebug args false) s draw gdraw goff).global_rng_offset_after := by
  exact ⟨rfl, rfl, fun i => rfl, rfl, rfl⟩

/-- C3: the tensor handed to the denoising network is the channel-axis
concatenation of the scaled noisy latent, the latent mask, and the scaled
latent conditioning image exactly when the model variant has both mask input
and conditioning-image input (channel count latent + mask + conditioning),
and is exactly the scaled noisy latent (channel count latent) otherwise. -/
theorem predict_latent_input_assembly (M : SDModel) (B : Batch) (args : TrainArgs) (s : Nat)
    (draw : Nat → Nat → ℚ) (gdraw : Nat → Nat) (goff : Nat) :
    (predict M B args s draw gdraw goff).latent_input =
      (if args.model_type.has_mask_input && args.model_type.has_conditioning_image_input then
        concatCh
          (concatCh (predict M B args s draw gdraw goff).scaled_noisy_latent_image
            B.latent_mask)
          (smulT M.scaling_factor B.latent_conditioning_image)
      else (predict M B args s draw gdraw goff).scaled_noisy_latent_image) ∧
    (predict M B args s draw gdraw goff).latent_input.c =
      (if args.model_type.has_mask_input && args.model_type.has_conditioning_image_input then
        B.latent_image.c + B.latent_mask.c + B.latent_conditioning_image.c
      else B.latent_image.c) := by
  cases hm : args.model_type.has_mask_input <;>
    cases hc : args.model_type.has_conditioning_image_input <;>
      simp [predict, hm, hc, concatCh, add_noise, smulT]

/-- Helper: in an aligned window of m * h consecutive naturals, each residue
k < h occurs exactly m times (uniformity of `raw % h` over uniform raws). -/
theorem card_range_filter_mod (h k m : Nat) (hk : k < h) :
    ((Finset.range (m * h)).filter (fun r => r % h = k)).card = m := by
  have hpos : 0 < h := Nat.lt_of_le_of_lt (Nat.zero_le k) hk
  have hset : (Finset.range (m * h)).filter (fun r => r % h = k) =
      (Finset.range m).image (fun q => q * h + k) := by
    ext x
    simp only [Finset.mem_filter, Finset.mem_range, Finset.mem_image]
    constructor
    · rintro ⟨hx, hmod⟩
      refine ⟨x / h, (Nat.div_lt_iff_lt_mul hpos).mpr hx, ?_⟩
      have h1 := Nat.div_add_mod x h
      rw [hmod] at h1
      rw [Nat.mul_comm (x / h) h]
      exact h1
    · rintro ⟨q, hq, rfl⟩
      constructor
      · calc q * h + k < q * h + h := Nat.add_lt_add_left hk _
          _ = (q + 1) * h := (Nat.succ_mul q h).symm
          _ ≤ m * h := Nat.mul_le_mul_right h hq
      · rw [Nat.mul_comm q h, Nat.mul_add_mod]
        exact Nat.mod_eq_of_lt hk
  rw [hset, Finset.card_image_of_injective _ ?_, Finset.card_range]
  intro a b hab
  exact Nat.eq_of_mul_eq_mul_right hpos (Nat.add_right_cancel hab)

/-- C6: every selected timestep is strictly below
int(num_train_timesteps * max_noising_strength), hence strictly below
num_train_timesteps * max_noising_strength itself; one timestep is drawn per
sample of the batch; and the selection rule raw % high maps uniform raw draws
uniformly onto [0, high). -/
theorem predict_timestep_uniform_in_range (M : SDModel) (B : Batch) (args : TrainArgs)
    (s : Nat) (draw : Nat → Nat → ℚ) (gdraw : Nat → Nat) (goff : Nat)
    (hhigh : 0 < highOf M args) :
    (∀ i, (predict M B args s draw gdraw goff).timestep i < highOf M args) ∧
    (∀ i, (((predict M B args s draw gdraw goff).timestep i : ℚ)) <
      (M.num_train_timesteps : ℚ) * args.max_noising_strength) ∧
    (predict M B args s draw gdraw goff).global_rng_offset_after = goff + B.latent_image.n ∧
    (∀ k, k < highOf M args → ∀ m,
      ((Finset.range (m * highOf M args)).filter
        (fun r => r % highOf M args = k)).card = m) := by
  have hlt : ∀ i, (predict M B args s draw gdraw goff).timestep i < highOf M args := by
    intro i
    rw [predict_timestep_eq]
    exact Nat.mod_lt _ hhigh
  refine ⟨hlt, ?_, rfl, fun k hk m => card_range_filter_mod _ k m hk⟩
  intro i
  set x : ℚ := (M.num_train_timesteps : ℚ) * args.max_noising_strength with hx
  have hfl : 0 < x.floor := by
    by_contra hle
    push_neg at hle
    have h0 : highOf M args = 0 := by
      unfold highOf
      rw [← hx]
      exact Int.toNat_eq_zero.mpr hle
    omega
  have hcast : ((highOf M args : ℚ)) ≤ x := by
    have h3 : ((highOf M args : ℤ)) = ⌊x⌋ := by
      unfold highOf
      rw [← hx, Rat.floor_def' x, ← Rat.floor_def]
      exact Int.toNat_of_nonneg (by rw [Rat.floor_def, ← Rat.floor_def' x]; exact hfl.le)
    calc ((highOf M args : ℚ)) = (((highOf M args : ℤ)) : ℚ) := by push_cast; ring
      _ = ((⌊x⌋ : ℤ) : ℚ) := by rw [h3]
      _ ≤ x := Int.floor_le x
  calc (((predict M B args s draw gdraw goff).timestep i : ℚ))
      < ((highOf M args : ℚ)) := by exact_mod_cast hlt i
    _ ≤ x := hcast

/-- C6 witness: the hypothesis and conclusion instantiated at the concrete
witness model (randint bound 2, first timestep 0). -/
theorem predict_timestep_uniform_in_range_witness :
    0 < highOf cModel cArgs ∧
    (predict cModel cBatch cArgs 7 cDraw cGdraw 0).timestep 0 < highOf cModel cArgs := by
  have hh : 0 < highOf cModel cArgs := by rw [highOf_cArgs]; decide
  exact ⟨hh, (predict_timestep_uniform_in_range cModel cBatch cArgs 7 cDraw cGdraw 0 hh).1 0⟩

/-- Helper: an in-bounds index is unchanged by broadcast indexing. -/
theorem bIdx_of_lt {size i : Nat} (h : i < size) : bIdx size i = i := by
  unfold bIdx
  split
  · omega
  · rfl

/-- Helper: broadcast indexing into a size-1 dimension reads index 0. -/
theorem bIdx_one (i : Nat) : bIdx 1 i = 0 := rfl

/-- Helper: broadcasting a size against itself keeps it. -/
theorem bSize_self (a : Nat) : bSize a a = a := by
  unfold bSize
  split
  · omega
  · rfl

/-- Helper: broadcasting a size against 1 keeps it. -/
theorem bSize_one_right (a : Nat) : bSize a 1 = a := by
  unfold bSize
  split
  · omega
  · rfl

/-- Helper: with positive offset-noise weight the drawn noise is the
broadcast sum of a full-shape draw and the weighted (n, c, 1, 1) draw that
follows it in the seeded generator's stream. -/
theorem predict_latent_noise_pos (M : SDModel) (B : Batch) (args : TrainArgs) (s : Nat)
    (draw : Nat → Nat → ℚ) (gdraw : Nat → Nat) (goff : Nat)
    (hw : 0 < args.offset_noise_weight) :
    (predict M B args s draw gdraw goff).latent_noise =
      taddT
        (randn4 draw ⟨s, 0⟩ B.latent_image.n B.latent_image.c B.latent_image.h
          B.latent_image.w).1
        (smulT args.offset_noise_weight
          (randn4 draw
            ⟨s, 0 + B.latent_image.n * B.latent_image.c * B.latent_image.h * B.latent_image.w⟩
            B.latent_image.n B.latent_image.c 1 1).1) := by
  simp [predict, if_pos hw, smulT, randn4]

/-- Helper: with non-positive offset-noise weight the drawn noise is exactly
the full-shape draw. -/
theorem predict_latent_noise_neg (M : SDModel) (B : Batch) (args : TrainArgs) (s : Nat)
    (draw : Nat → Nat → ℚ) (gdraw : Nat → Nat) (goff : Nat)
    (hw : ¬ 0 < args.offset_noise_weight) :
    (predict M B args s draw gdraw goff).latent_noise =
      (randn4 draw ⟨s, 0⟩ B.latent_image.n B.latent_image.c B.latent_image.h
        B.latent_image.w).1 := by
  simp [predict, if_neg hw, smulT, randn4]

/-- C7: the drawn latent noise always has the latent image's full shape; when
offset_noise_weight > 0 each in-bounds entry is the full-shape Gaussian draw
plus offset_noise_weight times a per-channel draw that is constant over
height and width (the (n, c, 1, 1) tensor broadcast over space); otherwise it
is exactly the plain full-shape draw with no offset component. -/
theorem predict_offset_noise (M : SDModel) (B : Batch) (args : TrainArgs) (s : Nat)
    (draw : Nat → Nat → ℚ) (gdraw : Nat → Nat) (goff : Nat) :
    ((predict M B args s draw gdraw goff).latent_noise.n = B.latent_image.n ∧
      (predict M B args s draw gdraw goff).latent_noise.c = B.latent_image.c ∧
      (predict M B args s draw gdraw goff).latent_noise.h = B.latent_image.h ∧
      (predict M B args s draw gdraw goff).latent_noise.w = B.latent_image.w) ∧
    (0 < args.offset_noise_weight →
      ∀ b ch i j, b < B.latent_image.n → ch < B.latent_image.c → i < B.latent_image.h →
        j < B.latent_image.w →
        (predict M B args s draw gdraw goff).latent_noise.data b ch i j =
          draw s (((b * B.latent_image.c + ch) * B.latent_image.h + i) * B.latent_image.w + j) +
          args.offset_noise_weight *
            draw s (B.latent_image.n * B.latent_image.c * B.latent_image.h * B.latent_image.w +
              (b * B.latent_image.c + ch))) ∧
    (¬ 0 < args.offset_noise_weight →
      ∀ b ch i j,
        (predict M B args s draw gdraw goff).latent_noise.data b ch i j =
          draw s (((b * B.latent_image.c + ch) * B.latent_image.h + i) * B.latent_image.w + j)) := by
  by_cases hw : 0 < args.offset_noise_weight
  · refine ⟨?_, ?_, fun hneg => absurd hw hneg⟩
    · rw [predict_latent_noise_pos M B args s draw gdraw goff hw]
      refine ⟨bSize_self _, bSize_self _, bSize_one_right _, bSize_one_right _⟩
    · intro _ b ch i j hb hc hi hj
      rw [predict_latent_noise_pos M B args s draw gdraw goff hw]
      simp only [taddT, randn4, smulT]
      rw [bIdx_of_lt hb, bIdx_of_lt hc, bIdx_of_lt hi, bIdx_of_lt hj]
      simp [bIdx]
  · refine ⟨?_, fun hpos => absurd hpos hw, ?_⟩
    · rw [predict_latent_noise_neg M B args s draw gdraw goff hw]
      simp [randn4]
    · intro _ b ch i j
      rw [predict_latent_noise_neg M B args s draw gdraw goff hw]
      simp [randn4]

/-- C7 witness: hypotheses and conclusion instantiated at the concrete
witness model with offset_noise_weight 1 and a 1x1x1x1 latent. -/
theorem predict_offset_noise_witness :
    (0 : ℚ) < cArgsOff.offset_noise_weight ∧
    (0 : Nat) < cBatch.latent_image.n ∧
    (predict cModel cBatch cArgsOff 7 cDraw cGdraw 0).latent_noise.data 0 0 0 0 =
      cDraw 7 (((0 * cBatch.latent_image.c + 0) * cBatch.latent_image.h + 0) *
          cBatch.latent_image.w + 0) +
        cArgsOff.offset_noise_weight *
          cDraw 7 (cBatch.latent_image.n * cBatch.latent_image.c * cBatch.latent_image.h *
            cBatch.latent_image.w + (0 * cBatch.latent_image.c + 0)) := by
  have hw : (0 : ℚ) < cArgsOff.offset_noise_weight := by norm_num [cArgsOff]
  refine ⟨hw, by decide, ?_⟩
  exact (predict_offset_noise cModel cBatch cArgsOff 7 cDraw cGdraw 0).2.1 hw 0 0 0 0
    (by decide) (by decide) (by decide) (by decide)
